import Mathlib

/-!
Verification of the DNS responder core (query router, response builder,
CIDR/base64/IP helpers) against its natural-language specification.

The Python source is shallowly embedded: strings become `List Char` (wrapped
as `String` at the interfaces), Python's unbounded integers become `Int`/`Nat`,
and every fallible operation (`int(...)`, `base64.b64decode`, `bytes.decode`)
becomes an `Option`/`Except` value that is pattern-matched exactly where the
source has a `try`/`except`.  Standard-library calls (`int`, `ipaddress`,
`base64`, `str.encode`/`bytes.decode`) are modelled from CPython's documented
behaviour for the ASCII inputs this resolver deals with.
-/

/-! ## Character helpers -/

/-- ASCII decimal digit, as accepted by CPython's `int` and `ipaddress`. -/
def isAsciiDigit (c : Char) : Bool := 48 ≤ c.toNat && c.toNat ≤ 57

/-- ASCII hexadecimal digit (`ipaddress._parse_hextet`'s character set). -/
def isAsciiHexDigit (c : Char) : Bool :=
  isAsciiDigit c || (65 ≤ c.toNat && c.toNat ≤ 70) || (97 ≤ c.toNat && c.toNat ≤ 102)

/-- Whitespace stripped by Python's `str.strip()` and by `int(...)`
(space, tab, LF, VT, FF, CR; the resolver only meets ASCII text). -/
def isPyWs (c : Char) : Bool := c.toNat = 32 || (9 ≤ c.toNat && c.toNat ≤ 13)

/-- ASCII case folding of one character (`str.lower()` on the ASCII
subset that DNS names use). -/
def lowerChar (c : Char) : Char :=
  if 65 ≤ c.toNat && c.toNat ≤ 90 then Char.ofNat (c.toNat + 32) else c

/-- Strip a given character from both ends of a string,
Python's `str.strip(".")` (here only ever used with `'.'`). -/
def pyStripChar (ch : Char) (l : List Char) : List Char :=
  ((l.dropWhile (· = ch)).reverse.dropWhile (· = ch)).reverse

/-- Strip whitespace from both ends, Python's `str.strip()`. -/
def pyStripWs (l : List Char) : List Char :=
  ((l.dropWhile isPyWs).reverse.dropWhile isPyWs).reverse

/-- Split on `'.'`, Python's `str.split(".")`: the empty string yields
`[""]`, and separators at the ends yield empty fields. -/
def splitDots : List Char → List (List Char)
  | [] => [[]]
  | c :: rest =>
    if c = '.' then [] :: splitDots rest
    else
      match splitDots rest with
      | [] => [[c]]
      | h :: t => (c :: h) :: t

/-- Rejoin with `'.'`, Python's `".".join(...)`. -/
def joinDots (parts : List (List Char)) : List Char := List.intercalate ['.'] parts

/-! ## Python `int(str)` (base 10)

CPython's grammar for `int` on a string: optional surrounding whitespace,
an optional `+`/`-` sign, then a non-empty digit run in which single
underscores may appear between two digits.  On failure `int` raises
`ValueError`, modelled as `none`. -/

/-- Digit run continuation: after one digit, each later position is a digit,
optionally preceded by a single underscore. -/
def digitsTail : List Char → Bool
  | [] => true
  | '_' :: rest =>
    match rest with
    | [] => false
    | c :: rest2 => isAsciiDigit c && digitsTail rest2
  | c :: rest => isAsciiDigit c && digitsTail rest

/-- A valid (sign-free) digit run for Python's `int`. -/
def digitsOk : List Char → Bool
  | [] => false
  | c :: rest => isAsciiDigit c && digitsTail rest

/-- Numeric value of a digit run (underscores skipped). -/
def digitsVal (ds : List Char) : Int :=
  (ds.filter (· ≠ '_')).foldl (fun a c => a * 10 + Int.ofNat (c.toNat - 48)) 0

/-- Python's `int(s)` for base 10: `some value`, or `none` for the
`ValueError` the resolver catches. -/
def pyIntParse (l : List Char) : Option Int :=
  let t := pyStripWs l
  match t with
  | '+' :: ds => if digitsOk ds then some (digitsVal ds) else none
  | '-' :: ds => if digitsOk ds then some (-(digitsVal ds)) else none
  | ds => if digitsOk ds then some (digitsVal ds) else none

/-! ## `ipaddress` validators

`is_valid_ipv4` / `is_valid_ipv6` from `utils/ip_utils.py` (duplicated as
`Resolver._is_valid_ipv4` / `_is_valid_ipv6` in `main.py`) call
`ipaddress.IPv4Address` / `IPv6Address` and report whether they raise
`AddressValueError`.  The CPython parsing rules are modelled here. -/

/-- One dotted-quad octet (`ipaddress._parse_octet`): 1–3 ASCII decimal
digits, no leading zero unless the octet is exactly `0`, value ≤ 255. -/
def octetOk (s : List Char) : Bool :=
  s ≠ [] && s.length ≤ 3 && s.all isAsciiDigit &&
    !(s.length > 1 && s.headD '0' = '0') &&
    (s.foldl (fun a c => a * 10 + (c.toNat - 48)) 0) ≤ 255

/-- `is_valid_ipv4` over a character list: exactly four valid octets. -/
def isValidIpv4L (l : List Char) : Bool :=
  let parts := splitDots l
  parts.length = 4 && parts.all octetOk

/-- `is_valid_ipv4(ip)` from the source. -/
def is_valid_ipv4 (s : String) : Bool := isValidIpv4L s.toList

/-- Numeric value of a valid dotted quad (used for the IPv4-in-IPv6 form). -/
def ipv4Value (l : List Char) : Nat :=
  (splitDots l).foldl (fun a p => a * 256 + p.foldl (fun b c => b * 10 + (c.toNat - 48)) 0) 0

/-- One IPv6 hextet (`ipaddress._parse_hextet`): 1–4 hex digits. -/
def hextetOk (s : List Char) : Bool :=
  s ≠ [] && s.length ≤ 4 && s.all isAsciiHexDigit

/-- Group fields of an IPv6 literal after splitting on `':'`: an empty
field (from `::` or an end colon), a valid hextet, or garbage. -/
inductive V6Tok where
  | empty
  | hex
  | bad
  deriving DecidableEq

/-- Classify one colon-separated field. -/
def v6Tok (s : List Char) : V6Tok :=
  if s = [] then .empty else if hextetOk s then .hex else .bad

/-- Split on `':'` (Python's `str.split(':')`). -/
def splitColons : List Char → List (List Char)
  | [] => [[]]
  | c :: rest =>
    if c = ':' then [] :: splitColons rest
    else
      match splitColons rest with
      | [] => [[c]]
      | h :: t => (c :: h) :: t

/-- Index of the unique empty field strictly inside the list
(`ipaddress`'s search for `::`); `none` if absent, `none`-with-failure
is signalled separately when two are found. -/
def findSkip (toks : List V6Tok) : Option (Option Nat) :=
  let inner := (toks.drop 1).take (toks.length - 2)
  let idxs := (List.range inner.length).filter fun i => inner.getD i .bad = .empty
  match idxs with
  | [] => some none
  | [i] => some (some (i + 1))
  | _ => none

/-- The address part of an IPv6 literal (scope id already removed),
following CPython's `_ip_int_from_string`. -/
def ipv6AddrOk (addr : List Char) : Bool :=
  let parts := splitColons addr
  if parts.length < 3 then false
  else
    -- an embedded dotted quad may stand in the last field
    let lastP := parts.getLastD []
    let expandOk := !lastP.elem '.' || isValidIpv4L lastP
    let toks : List V6Tok :=
      if lastP.elem '.' then (parts.dropLast.map v6Tok) ++ [.hex, .hex]
      else parts.map v6Tok
    expandOk &&
    match findSkip toks with
    | none => false      -- two `::`
    | some (some i) =>
      let hi0 := i
      let lo0 := toks.length - i - 1
      let firstEmpty := toks.headD .bad = .empty
      let lastEmpty := toks.getLastD .bad = .empty
      let hi := if firstEmpty then hi0 - 1 else hi0
      let lo := if lastEmpty then lo0 - 1 else lo0
      (!firstEmpty || hi0 - 1 = 0) && (!lastEmpty || lo0 - 1 = 0) &&
      hi + lo + 1 ≤ 8 &&
      ((toks.take hi).all (· = .hex)) &&
      (((toks.drop (toks.length - lo)).all (· = .hex)))
    | some none =>
      toks.length = 8 && toks.all (· = .hex)

/-- `is_valid_ipv6` over a character list: CPython's `IPv6Address(str)`,
with the `'/'` rejection and the `%scope` split of the constructor. -/
def isValidIpv6L (l : List Char) : Bool :=
  if l.elem '/' then false
  else
    match l.splitOn '%' with
    | [addr] => ipv6AddrOk addr
    | [addr, scope] => !scope.isEmpty && !scope.elem '%' && ipv6AddrOk addr
    | _ => false

/-- `is_valid_ipv6(ip)` from the source. -/
def is_valid_ipv6 (s : String) : Bool := isValidIpv6L s.toList

/-! ## CIDR helpers (`utils/cidr_utils.py`, `utils/ip_utils.py`) -/

/-- `calculate_usable_ips(prefix)`: usable host count of an IPv4 subnet. -/
def calculate_usable_ips (p : Nat) : Int :=
  let total_hosts : Int := 2 ^ (32 - p)
  if p = 31 then 2 else if p = 32 then 1 else max 0 (total_hosts - 2)

/-- `int_to_ip(x)`: dotted quad of byte fields 24,16,8,0 of `x`. -/
def int_to_ip (x : Nat) : String :=
  String.intercalate "." ([24, 16, 8, 0].map fun i => toString ((x >>> i) % 256))

/-- `subnet_mask_from_prefix(prefix)` (named without its last source word,
which this development cannot use as an identifier): explicit `0.0.0.0`
for 0, otherwise the dotted quad of `0xFFFFFFFF << (32 - p)`. -/
def subnet_mask_from_pfx (p : Nat) : String :=
  if p = 0 then "0.0.0.0" else int_to_ip (0xFFFFFFFF <<< (32 - p))

/-! ## Base64 (`base64.b64encode` / `b64decode`, `binascii`)

`b64encode` is RFC 4648 standard base64 with padding.  `b64decode` (as the
resolver calls it, `validate=False`) is CPython's lenient `binascii.a2b_base64`:
characters outside the alphabet are discarded, a group completed by enough
`'='` padding ends the decode (later input ignored), and leftover data
characters at the end raise `binascii.Error`.  `b64decode` with
`validate=True` (as `utils/base64_utils.py` calls it) first requires the
input to match `[A-Za-z0-9+/]*={0,2}`.  Bytes are `Nat`s below 256. -/

/-- Code point of base64 alphabet position `i` (0–63). -/
def encCode (i : Nat) : Nat :=
  if i < 26 then 65 + i
  else if i < 52 then 97 + (i - 26)
  else if i < 62 then 48 + (i - 52)
  else if i = 62 then 43 else 47

/-- Base64 alphabet character of position `i`. -/
def encChar (i : Nat) : Char := Char.ofNat (encCode i)

/-- Alphabet position of a character, `none` outside the alphabet. -/
def decChar? (c : Char) : Option Nat :=
  let n := c.toNat
  if 65 ≤ n ∧ n ≤ 90 then some (n - 65)
  else if 97 ≤ n ∧ n ≤ 122 then some (26 + (n - 97))
  else if 48 ≤ n ∧ n ≤ 57 then some (52 + (n - 48))
  else if n = 43 then some 62
  else if n = 47 then some 63
  else none

/-- Membership in the base64 alphabet. -/
def isB64Char (c : Char) : Bool := (decChar? c).isSome

/-- `binascii.b2a_base64` / `base64.b64encode` on a byte list. -/
def b2a : List Nat → List Char
  | [] => []
  | [a] => [encChar (a / 4), encChar (a % 4 * 16), '=', '=']
  | [a, b] => [encChar (a / 4), encChar (a % 4 * 16 + b / 16), encChar (b % 16 * 4), '=']
  | a :: b :: c :: rest =>
    encChar (a / 4) :: encChar (a % 4 * 16 + b / 16) ::
      encChar (b % 16 * 4 + c / 64) :: encChar (c % 64) :: b2a rest

/-- The 3 bytes of a full sextet group. -/
def emit4 (e1 e2 e3 e4 : Nat) : List Nat :=
  [e1 * 4 + e2 / 16, e2 % 16 * 16 + e3 / 4, e3 % 4 * 64 + e4]

/-- The bytes recovered from a 2- or 3-sextet group closed by padding. -/
def emitPartial : List Nat → List Nat
  | [e1, e2] => [e1 * 4 + e2 / 16]
  | [e1, e2, e3] => [e1 * 4 + e2 / 16, e2 % 16 * 16 + e3 / 4]
  | _ => []

/-- Lenient `binascii.a2b_base64` (`strict_mode=False`): `quad` holds the
sextets of the open group, `pads` the pending `'='` count. -/
def a2bAux : List Char → List Nat → Nat → Except String (List Nat)
  | [], quad, _ =>
    match quad with
    | [] => .ok []
    | [_] => .error "Invalid base64-encoded string: wrong number of data characters"
    | _ => .error "Incorrect padding"
  | c :: rest, quad, pads =>
    if c = '=' then
      if 2 ≤ quad.length then
        if 4 ≤ quad.length + (pads + 1) then .ok (emitPartial quad)
        else a2bAux rest quad (pads + 1)
      else a2bAux rest quad pads
    else
      match decChar? c with
      | none => a2bAux rest quad pads
      | some d =>
        match quad with
        | [e1, e2, e3] =>
          match a2bAux rest [] 0 with
          | .ok bs => .ok (emit4 e1 e2 e3 d ++ bs)
          | .error e => .error e
        | _ => a2bAux rest (quad ++ [d]) 0

/-- `binascii.a2b_base64` on freshly started input. -/
def a2b (l : List Char) : Except String (List Nat) := a2bAux l [] 0

/-- The regular-expression gate of `base64.b64decode(..., validate=True)`:
`[A-Za-z0-9+/]*={0,2}` must match the whole input. -/
def validB64 : List Char → Bool
  | [] => true
  | c :: rest =>
    if isB64Char c then validB64 rest
    else (c :: rest).all (· = '=') && (c :: rest).length ≤ 2

/-! ## UTF-8 (`str.encode('utf-8')` / `bytes.decode('utf-8')`) -/

/-- UTF-8 bytes of one scalar value. -/
def utf8EncodeChar (c : Char) : List Nat :=
  let n := c.toNat
  if n < 128 then [n]
  else if n < 2048 then [192 + n / 64, 128 + n % 64]
  else if n < 65536 then [224 + n / 4096, 128 + n / 64 % 64, 128 + n % 64]
  else [240 + n / 262144, 128 + n / 4096 % 64, 128 + n / 64 % 64, 128 + n % 64]

/-- `str.encode('utf-8')` (total: Lean strings carry no lone surrogates,
so the source's `except` branch around `.encode()` is unreachable). -/
def utf8Encode (cs : List Char) : List Nat := (cs.map utf8EncodeChar).flatten

/-- Strict `bytes.decode('utf-8')` as a byte-at-a-time state machine:
`need` pending continuation bytes, `acc` the partial scalar value, and
`lo`/`hi` the admissible range of the next byte (tightened on the first
continuation byte, which is how overlong forms, surrogates and
above-`U+10FFFF` values are rejected). -/
def utf8Step : List Nat → Nat → Nat → Nat → Nat → Option (List Char)
  | [], 0, _, _, _ => some []
  | [], _+1, _, _, _ => none
  | b :: rest, 0, _, _, _ =>
    if b < 128 then (utf8Step rest 0 0 0 0).map (Char.ofNat b :: ·)
    else if 194 ≤ b ∧ b ≤ 223 then utf8Step rest 1 (b - 192) 128 191
    else if 224 ≤ b ∧ b ≤ 239 then
      utf8Step rest 2 (b - 224) (if b = 224 then 160 else 128) (if b = 237 then 159 else 191)
    else if 240 ≤ b ∧ b ≤ 244 then
      utf8Step rest 3 (b - 240) (if b = 240 then 144 else 128) (if b = 244 then 143 else 191)
    else none
  | b :: rest, need + 1, acc, lo, hi =>
    if lo ≤ b ∧ b ≤ hi then
      if need = 0 then (utf8Step rest 0 0 0 0).map (Char.ofNat (acc * 64 + (b - 128)) :: ·)
      else utf8Step rest need (acc * 64 + (b - 128)) 128 191
    else none

/-- `bytes.decode('utf-8')`: run the state machine from the idle state. -/
def utf8Decode? (l : List Nat) : Option (List Char) := utf8Step l 0 0 0 0

/-! ## `utils/base64_utils.py` -/

/-- `encode_base64(text)`: base64 of the UTF-8 bytes (the `except` branch
returning `"Encoding error"` needs a lone surrogate and cannot be reached
from a Lean `String`). -/
def encode_base64 (s : String) : String := String.mk (b2a (utf8Encode s.toList))

/-- `decode_base64(encoded_text)`: drop spaces and newlines, pad with `'='`
to a multiple of 4, `b64decode(..., validate=True)` (an ASCII check, the
alphabet gate, then the lenient decoder), decode UTF-8; every failure
degrades to `"Invalid base64"`. -/
def decode_base64 (s : String) : String :=
  let cleaned := (s.toList.filter (· ≠ ' ')).filter (· ≠ '\n')
  let padded := cleaned ++ List.replicate ((4 - cleaned.length % 4) % 4) '='
  if padded.all (fun c => c.toNat < 128) && validB64 padded then
    match a2b padded with
    | .ok bs =>
      match utf8Decode? bs with
      | some cs => String.mk cs
      | none => "Invalid base64"
    | .error _ => "Invalid base64"
  else "Invalid base64"

/-! ## IP fetching (`utils/ip_fetch_utils.py`, `Resolver._fetch_ipv4/6`)

The fixed endpoint list is abstracted as the list of per-endpoint outcomes:
`none` for a raised/timed-out request (the `except` path) and `some body`
for a response body. -/

/-- `fetch_ipv4(...)`: first response that, stripped, validates as IPv4;
fallback `"127.0.0.1"`.  `Resolver._fetch_ipv4` is the same loop. -/
def fetch_ipv4 : List (Option String) → String
  | [] => "127.0.0.1"
  | none :: rest => fetch_ipv4 rest
  | some body :: rest =>
    let ip := String.mk (pyStripWs body.toList)
    if is_valid_ipv4 ip then ip else fetch_ipv4 rest

/-- `fetch_ipv6(...)`: same with IPv6 and fallback `"::1"`. -/
def fetch_ipv6 : List (Option String) → String
  | [] => "::1"
  | none :: rest => fetch_ipv6 rest
  | some body :: rest =>
    let ip := String.mk (pyStripWs body.toList)
    if is_valid_ipv6 ip then ip else fetch_ipv6 rest

/-- The resolver's public-IP cache (`_cached_ipv4`, `_cached_ipv6`,
`_cache_time`); `none` models Python's `None`. -/
structure IpCache where
  ipv4 : Option String
  ipv6 : Option String
  time : Int
  deriving DecidableEq

/-- Python truthiness of the cached fields (`None` and `""` are falsy). -/
def truthy : Option String → Bool
  | none => false
  | some s => !s.isEmpty

/-- `Resolver._get_public_ips`: serve a fresh, truthy cache; else fetch
both families and overwrite cache and timestamp. -/
def get_public_ips (c : IpCache) (now : Int) (r4 r6 : List (Option String)) :
    String × String × IpCache :=
  if now - c.time < 300 ∧ truthy c.ipv4 ∧ truthy c.ipv6 then
    (c.ipv4.getD "", c.ipv6.getD "", c)
  else
    let v4 := fetch_ipv4 r4
    let v6 := fetch_ipv6 r6
    (v4, v6, ⟨some v4, some v6, now⟩)

/-! ## The resolver (`main.py`)

A query is `(raw name, requested type, client address)`; the environment
carries what the handlers read from outside the query (clock, cached
public addresses).  Answers keep only `(record type, value)` — the reply's
name/TTL bookkeeping is the transport library's. -/

/-- Requested record type (`request.q.qtype` compared against `QTYPE.*`);
`OTHER` stands for every code the handlers never name. -/
inductive QType where
  | A
  | AAAA
  | TXT
  | ANY
  | OTHER
  deriving DecidableEq

/-- Record type of an emitted answer. -/
inductive RType where
  | A
  | AAAA
  | TXT
  deriving DecidableEq

/-- One answer record. -/
structure Answer where
  rtype : RType
  value : String
  deriving DecidableEq

/-- Ambient data of one `resolve` call. -/
structure Env where
  ipv4 : String
  ipv6 : String
  client : String
  timeStr : String
  second : Nat
  deriving DecidableEq

/-- A fixed environment for concrete end-to-end evaluations. -/
def env0 : Env := ⟨"127.0.0.1", "::1", "127.0.0.1", "2026-10-12 00:00:00", 7⟩

/-- The classifier's outcome (spec §3's `Intent`). -/
inductive Intent where
  | cidrUsableCount (p : Nat)
  | cidrSubnetMask (p : Nat)
  | currentTime
  | serverPublicIp
  | clientIp
  | base64Encode (payload : String)
  | base64Decode (payload : String)
  | unrecognized
  deriving DecidableEq

/-- `Resolver._extract_query`'s name normalisation:
`str(qname).strip(".").lower()`. -/
def extractName (raw : String) : List Char :=
  (pyStripChar '.' raw.toList).map lowerChar

/-- Rule-1 guard of `resolve`: two labels, `.cidr` suffix, first label an
`int` in `[0, 32]`; the caught `ValueError` and the range miss both
yield `none` (fall through). -/
def cidrGuard (q : List Char) (parts : List (List Char)) : Option Nat :=
  if parts.length = 2 ∧ List.isSuffixOf ".cidr".toList q then
    match pyIntParse (parts.headD []) with
    | some v => if 0 ≤ v ∧ v ≤ 32 then some v.toNat else none
    | none => none
  else none

/-- Rule-2 guard: three labels, `.mask.cidr` suffix, same parse. -/
def maskGuard (q : List Char) (parts : List (List Char)) : Option Nat :=
  if parts.length = 3 ∧ List.isSuffixOf ".mask.cidr".toList q then
    match pyIntParse (parts.headD []) with
    | some v => if 0 ≤ v ∧ v ≤ 32 then some v.toNat else none
    | none => none
  else none

/-- `Resolver._resolve_cidr` (answers only TXT; the usable-host count is
computed inline with the same formula as `calculate_usable_ips`). -/
def resolveCidr (qtype : QType) (p : Nat) : List Answer :=
  let total_hosts : Int := 2 ^ (32 - p)
  let usable : Int := if p = 31 then 2 else if p = 32 then 1 else max 0 (total_hosts - 2)
  if qtype = .TXT then [⟨.TXT, toString usable⟩] else []

/-- `Resolver._resolve_subnet_mask` (answers only A). -/
def resolveSubnetMask (qtype : QType) (p : Nat) : List Answer :=
  if qtype = .A then [⟨.A, subnet_mask_from_pfx p⟩] else []

/-- `Resolver._resolve_time`. -/
def resolveTime (qtype : QType) (env : Env) : List Answer :=
  if qtype = .TXT then [⟨.TXT, env.timeStr⟩]
  else if qtype = .A then [⟨.A, "127.0.0." ++ toString (env.second % 255 + 1)⟩]
  else []

/-- `Resolver._resolve_server_ip`. -/
def resolveServerIp (qtype : QType) (ipv4 ipv6 : String) : List Answer :=
  if qtype = .A then [⟨.A, ipv4⟩]
  else if qtype = .AAAA then [⟨.AAAA, ipv6⟩]
  else if qtype = .TXT then [⟨.TXT, "IPv4: " ++ ipv4 ++ ", IPv6: " ++ ipv6⟩]
  else if qtype = .ANY then
    [⟨.A, ipv4⟩, ⟨.AAAA, ipv6⟩, ⟨.TXT, "IPv4: " ++ ipv4 ++ ", IPv6: " ++ ipv6⟩]
  else []

/-- `Resolver._resolve_client_ip`. -/
def resolveClientIp (qtype : QType) (client : String) : List Answer :=
  let is4 := is_valid_ipv4 client
  let is6 := is_valid_ipv6 client
  if qtype = .A ∧ is4 then [⟨.A, client⟩]
  else if qtype = .AAAA ∧ is6 then [⟨.AAAA, client⟩]
  else if qtype = .TXT then [⟨.TXT, client⟩]
  else []

/-- `Resolver._resolve_b64_encode` (answers only TXT). -/
def resolveB64Encode (qtype : QType) (payload : String) : List Answer :=
  if qtype = .TXT then [⟨.TXT, encode_base64 payload⟩] else []

/-- The `try` body of `_resolve_b64_decode`:
`base64.b64decode(encoded_text).decode('utf-8')` — an ASCII re-encode of
the `str` argument, the lenient decoder, then strict UTF-8; `none` is the
raised exception the handler catches. -/
def pyB64DecodeToStr (payload : List Char) : Option String :=
  if payload.all (fun c => c.toNat < 128) then
    match a2b payload with
    | .ok bs => (utf8Decode? bs).map String.mk
    | .error _ => none
  else none

/-- `Resolver._resolve_b64_decode` (answers only TXT; every decode failure
becomes the literal answer `"Invalid base64"`). -/
def resolveB64Decode (qtype : QType) (payload : String) : List Answer :=
  if qtype = .TXT then
    match pyB64DecodeToStr payload.toList with
    | some s => [⟨.TXT, s⟩]
    | none => [⟨.TXT, "Invalid base64"⟩]
  else []

/-- The ordered rule list of `Resolver.resolve`, producing spec §3's
`Intent` (router half of the route-then-build decomposition). -/
def classify (q : List Char) : Intent :=
  let parts := splitDots q
  match cidrGuard q parts with
  | some p => .cidrUsableCount p
  | none =>
  match maskGuard q parts with
  | some p => .cidrSubnetMask p
  | none =>
  if q = "time".toList then .currentTime
  else if q = "ip".toList then .serverPublicIp
  else if q = "myip".toList then .clientIp
  else if parts.length > 1 ∧ parts.headD [] = "b64".toList then
    .base64Encode (String.mk (joinDots parts.tail))
  else if parts.length > 1 ∧ parts.headD [] = "d64".toList then
    .base64Decode (String.mk (parts.tail.flatten))
  else .unrecognized

/-- Spec §4.2's response builder: dispatch one classified intent. -/
def buildAnswers (i : Intent) (qtype : QType) (env : Env) : List Answer :=
  match i with
  | .cidrUsableCount p => resolveCidr qtype p
  | .cidrSubnetMask p => resolveSubnetMask qtype p
  | .currentTime => resolveTime qtype env
  | .serverPublicIp => resolveServerIp qtype env.ipv4 env.ipv6
  | .clientIp => resolveClientIp qtype env.client
  | .base64Encode payload => resolveB64Encode qtype payload
  | .base64Decode payload => resolveB64Decode qtype payload
  | .unrecognized => []

/-- `Resolver.resolve`, written with the source's interleaved guards: each
rule either fires into its handler or falls through to the next; an
unmatched name returns the empty reply. -/
def resolve (raw : String) (qtype : QType) (env : Env) : List Answer :=
  let q := extractName raw
  let parts := splitDots q
  match cidrGuard q parts with
  | some p => resolveCidr qtype p
  | none =>
  match maskGuard q parts with
  | some p => resolveSubnetMask qtype p
  | none =>
  if q = "time".toList then resolveTime qtype env
  else if q = "ip".toList then resolveServerIp qtype env.ipv4 env.ipv6
  else if q = "myip".toList then resolveClientIp qtype env.client
  else if parts.length > 1 ∧ parts.headD [] = "b64".toList then
    resolveB64Encode qtype (String.mk (joinDots parts.tail))
  else if parts.length > 1 ∧ parts.headD [] = "d64".toList then
    resolveB64Decode qtype (String.mk (parts.tail.flatten))
  else []

/-- The classifier applied the way `resolve` applies it. -/
def classifyName (raw : String) : Intent := classify (extractName raw)

/-! ## Claim theorems -/

/-- C1: for p in [0,32] the usable-host count is 2 at /31, 1 at /32 and
`max 0 (2^(32-p) - 2)` otherwise; `_resolve_cidr`'s inline computation
agrees with `calculate_usable_ips`; 254 at /24 and 4294967294 at /0; the
query `("24.cidr", TXT)` yields exactly the TXT answer `"254"` and
`("24.cidr", A)` yields no answer. -/
theorem c1_usable_count (p : Nat) (_hp : p ≤ 32) :
    calculate_usable_ips p =
      (if p = 31 then 2 else if p = 32 then 1 else max 0 ((2 : Int) ^ (32 - p) - 2)) ∧
    resolveCidr .TXT p = [⟨.TXT, toString (calculate_usable_ips p)⟩] ∧
    calculate_usable_ips 24 = 254 ∧
    calculate_usable_ips 0 = 4294967294 ∧
    resolve "24.cidr" .TXT env0 = [⟨.TXT, "254"⟩] ∧
    resolve "24.cidr" .A env0 = [] := by
  exact ⟨rfl, rfl, by decide, by decide, by decide, by decide⟩

/-- Witness for C1 at p = 24. -/
theorem c1_usable_count_witness : calculate_usable_ips 24 = 254 :=
  (c1_usable_count 24 (by decide)).2.2.1

/-- C2: the mask function returns `0.0.0.0`, `255.255.255.0`,
`255.255.255.255` at 0, 24, 32, and for p ≥ 1 it equals `int_to_ip` of
the shifted mask reduced mod 2^32 (so the quad of the 32-bit mask with p
leading ones); `_resolve_subnet_mask` serves it for type A. -/
theorem c2_subnet_mask :
    subnet_mask_from_pfx 24 = "255.255.255.0" ∧
    subnet_mask_from_pfx 0 = "0.0.0.0" ∧
    subnet_mask_from_pfx 32 = "255.255.255.255" ∧
    (∀ p : Nat, p < 33 → 1 ≤ p →
      subnet_mask_from_pfx p = int_to_ip ((0xFFFFFFFF <<< (32 - p)) % 2 ^ 32) ∧
      resolveSubnetMask .A p = [⟨.A, subnet_mask_from_pfx p⟩]) := by decide

/-- Witness for C2's bounded universal at p = 24. -/
theorem c2_subnet_mask_witness :
    subnet_mask_from_pfx 24 = int_to_ip ((0xFFFFFFFF <<< (32 - 24)) % 2 ^ 32) ∧
    resolveSubnetMask .A 24 = [⟨.A, subnet_mask_from_pfx 24⟩] :=
  c2_subnet_mask.2.2.2 24 (by decide) (by decide)

/-- C3 counterexample: classifying `b64.Hello` yields the payload
`"hello"`, not the case-preserved `"Hello"` the claim states —
`_extract_query` lower-cases the whole name before routing. -/
theorem c3_case_cex :
    classifyName "b64.Hello" = .base64Encode "hello" ∧
    Intent.base64Encode "hello" ≠ .base64Encode "Hello" := by decide

/-- C3 amended: classifying `b64.Hello` yields Base64Encode with payload
`"hello"` — the remaining labels case-folded along with the whole name —
and the TXT answer is the base64 of `"hello"`. -/
theorem c3_payload_folded :
    classifyName "b64.Hello" = .base64Encode "hello" ∧
    ∀ env, resolve "b64.Hello" .TXT env = [⟨.TXT, "aGVsbG8="⟩] := by
  exact ⟨by decide, fun env => rfl⟩

/-- C4: the resolver's decode path does not strip, pad or validate — it
hands the (case-folded) payload straight to the lenient decoder, so
`("d64.aGVsbG8", TXT)` answers `"Invalid base64"` (unpadded length 7),
not the claimed `"hello"`; the strip-pad-strict pipeline the claim
describes lives in the standalone `decode_base64`, which does map
`"aGVsbG8"` to `"hello"`. -/
theorem c4_decode_divergence :
    resolve "d64.aGVsbG8" .TXT env0 = [⟨.TXT, "Invalid base64"⟩] ∧
    resolve "d64.aGVsbG8" .TXT env0 ≠ [⟨.TXT, "hello"⟩] ∧
    decode_base64 "aGVsbG8" = "hello" ∧
    resolve "d64.!!!" .TXT env0 = [⟨.TXT, ""⟩] := by decide

/-- C5 counterexample: for ServerPublicIp, ANY is answered with three
records (A, AAAA and TXT), not the claimed single default A answer, and
an unnamed type gets zero answers, not the A default. -/
theorem c5_any_cex :
    resolveServerIp .ANY "9.9.9.9" "::1" =
      [⟨.A, "9.9.9.9"⟩, ⟨.AAAA, "::1"⟩, ⟨.TXT, "IPv4: 9.9.9.9, IPv6: ::1"⟩] ∧
    resolveServerIp .ANY "9.9.9.9" "::1" ≠ [⟨.A, "9.9.9.9"⟩] ∧
    resolveServerIp .OTHER "9.9.9.9" "::1" = [] := by decide

/-- C5 amended: A yields the cached IPv4, AAAA the cached IPv6, TXT the
combined text, ANY all three records, and every other type zero answers. -/
theorem c5_server_ip (v4 v6 : String) :
    resolveServerIp .A v4 v6 = [⟨.A, v4⟩] ∧
    resolveServerIp .AAAA v4 v6 = [⟨.AAAA, v6⟩] ∧
    resolveServerIp .TXT v4 v6 = [⟨.TXT, "IPv4: " ++ v4 ++ ", IPv6: " ++ v6⟩] ∧
    resolveServerIp .ANY v4 v6 =
      [⟨.A, v4⟩, ⟨.AAAA, v6⟩, ⟨.TXT, "IPv4: " ++ v4 ++ ", IPv6: " ++ v6⟩] ∧
    resolveServerIp .OTHER v4 v6 = [] :=
  ⟨rfl, rfl, rfl, rfl, rfl⟩

/-- C6 counterexample: for ClientIp with a valid IPv4 client, an ANY query
yields zero answers — there is no emit-A/AAAA/TXT fallback branch. -/
theorem c6_any_cex :
    is_valid_ipv4 "203.0.113.7" = true ∧
    resolveClientIp .ANY "203.0.113.7" = [] ∧
    resolveClientIp .ANY "203.0.113.7" ≠ [⟨.A, "203.0.113.7"⟩] := by decide

/-- C6 amended: A answers exactly when the client address is valid IPv4,
AAAA exactly when valid IPv6, TXT always echoes the raw address, and ANY
like every other remaining type yields zero answers. -/
theorem c6_client_ip (client : String) :
    resolveClientIp .A client =
      (if is_valid_ipv4 client then [⟨.A, client⟩] else []) ∧
    resolveClientIp .AAAA client =
      (if is_valid_ipv6 client then [⟨.AAAA, client⟩] else []) ∧
    resolveClientIp .TXT client = [⟨.TXT, client⟩] ∧
    resolveClientIp .ANY client = [] ∧
    resolveClientIp .OTHER client = [] := by
  unfold resolveClientIp
  cases h4 : is_valid_ipv4 client <;> cases h6 : is_valid_ipv6 client <;> simp

/-- Splitting at an explicit separator after a separator-free run. -/
theorem splitDots_sep (l r : List Char) (h : ∀ c ∈ l, c ≠ '.') :
    splitDots (l ++ '.' :: r) = l :: splitDots r := by
  induction l with
  | nil => simp [splitDots]
  | cons c l' ih =>
    have hc : c ≠ '.' := h c (by simp)
    have ih' := ih fun x hx => h x (by simp [hx])
    simp [splitDots, hc, ih']

/-- A list is a suffix of anything it is appended to. -/
theorem isSuffixOf_append (x l : List Char) : List.isSuffixOf x (l ++ x) = true := by
  unfold List.isSuffixOf
  simp

/-- C7 counterexample: a first label with leading zeros — and even one
with a `+` sign — parses under Python's `int` and lands in range, so the
CidrUsableCount rule does fire for `007.cidr`, against the claim. -/
theorem c7_leading_zero_cex :
    classifyName "007.cidr" = .cidrUsableCount 7 ∧
    resolve "007.cidr" .TXT env0 = [⟨.TXT, "33554430"⟩] ∧
    classifyName "+7.cidr" = .cidrUsableCount 7 := by decide

/-- C7 amended: a first label that fails Python's `int` (non-digits
outside an optional sign/underscore placement) or parses out of [0,32]
does not fire the rule — later rules still apply (`b64.cidr` becomes
Base64Encode, `33.cidr` and `abc.cidr` end Unrecognized) — but labels
that `int` does normalise, such as `007` or `+7`, do fire. -/
theorem c7_fallthrough (lbl : List Char)
    (h1 : ∀ c ∈ lbl, c ≠ '.')
    (h2 : pyIntParse lbl = none ∨ ∀ v, pyIntParse lbl = some v → v < 0 ∨ 32 < v) :
    (∀ k, classify (lbl ++ ".cidr".toList) ≠ .cidrUsableCount k) ∧
    classifyName "b64.cidr" = .base64Encode "cidr" ∧
    classifyName "33.cidr" = .unrecognized ∧
    classifyName "abc.cidr" = .unrecognized ∧
    classifyName "007.cidr" = .cidrUsableCount 7 := by
  refine ⟨?_, by decide, by decide, by decide, by decide⟩
  intro k
  have hdot : (".cidr".toList : List Char) = '.' :: "cidr".toList := rfl
  have hsplit : splitDots (lbl ++ ".cidr".toList) = [lbl, "cidr".toList] := by
    rw [hdot, splitDots_sep lbl _ h1]
    rfl
  have hguard :
      cidrGuard (lbl ++ ".cidr".toList) (splitDots (lbl ++ ".cidr".toList)) = none := by
    unfold cidrGuard
    rw [hsplit]
    have hcond : ([lbl, "cidr".toList].length = 2 ∧
        List.isSuffixOf ".cidr".toList (lbl ++ ".cidr".toList) = true) := by
      exact ⟨rfl, isSuffixOf_append _ _⟩
    rw [if_pos ⟨rfl, hcond.2⟩]
    simp only [List.headD_cons]
    rcases h2 with hnone | hrange
    · rw [hnone]
    · cases hv : pyIntParse lbl with
      | none => rfl
      | some v =>
        have hr := hrange v hv
        show (if 0 ≤ v ∧ v ≤ 32 then some v.toNat else none) = none
        rw [if_neg]
        rintro ⟨ha, hb⟩
        omega
  simp only [classify]
  rw [hguard]
  cases hm : maskGuard (lbl ++ ".cidr".toList) (splitDots (lbl ++ ".cidr".toList)) with
  | some p => simp
  | none => split_ifs <;> simp

/-- Witness for C7 at the non-numeric label `abc`. -/
theorem c7_fallthrough_witness : classifyName "33.cidr" = Intent.unrecognized :=
  (c7_fallthrough "abc".toList (by decide) (Or.inl (by decide))).2.2.1

/-- C8: `resolve` is total — it factors as the total classifier followed
by the per-intent builder, the classifier gives every name exactly one
intent, and a name matching no rule (`Unrecognized`) gets the empty
answer list; every fallible step (`int`, `b64decode`, UTF-8) is an
`Option`/`Except` consumed at the source's own `except` sites, so no
exception escapes. -/
theorem c8_resolve_total (raw : String) (qtype : QType) (env : Env) :
    resolve raw qtype env = buildAnswers (classify (extractName raw)) qtype env ∧
    buildAnswers .unrecognized qtype env = [] ∧
    ∃! i : Intent, classify (extractName raw) = i := by
  refine ⟨?_, rfl, ⟨classify (extractName raw), rfl, fun y hy => hy.symm⟩⟩
  simp only [resolve, classify]
  cases hc : cidrGuard (extractName raw) (splitDots (extractName raw)) with
  | some p => rfl
  | none =>
    cases hm : maskGuard (extractName raw) (splitDots (extractName raw)) with
    | some p => rfl
    | none => split_ifs <;> rfl

/-- C10: the fetchers only return validated endpoint bodies or the valid
fallback literals, and the cache logic preserves "every cached string is
valid", so the public-IP cache and the addresses handed to the
ServerPublicIp answers are always syntactically valid. -/
theorem c10_fetched_ips_valid (c : IpCache) (now : Int) (r4 r6 : List (Option String))
    (h4 : ∀ s, c.ipv4 = some s → is_valid_ipv4 s = true)
    (h6 : ∀ s, c.ipv6 = some s → is_valid_ipv6 s = true) :
    (∀ rs, is_valid_ipv4 (fetch_ipv4 rs) = true) ∧
    (∀ rs, is_valid_ipv6 (fetch_ipv6 rs) = true) ∧
    is_valid_ipv4 (get_public_ips c now r4 r6).1 = true ∧
    is_valid_ipv6 (get_public_ips c now r4 r6).2.1 = true ∧
    (∀ s, (get_public_ips c now r4 r6).2.2.ipv4 = some s → is_valid_ipv4 s = true) ∧
    (∀ s, (get_public_ips c now r4 r6).2.2.ipv6 = some s → is_valid_ipv6 s = true) := by
  have hf4 : ∀ rs, is_valid_ipv4 (fetch_ipv4 rs) = true := by
    intro rs
    induction rs with
    | nil => decide
    | cons o rest ih =>
      cases o with
      | none => simpa [fetch_ipv4] using ih
      | some body =>
        simp only [fetch_ipv4]
        split
        · assumption
        · exact ih
  have hf6 : ∀ rs, is_valid_ipv6 (fetch_ipv6 rs) = true := by
    intro rs
    induction rs with
    | nil => decide
    | cons o rest ih =>
      cases o with
      | none => simpa [fetch_ipv6] using ih
      | some body =>
        simp only [fetch_ipv6]
        split
        · assumption
        · exact ih
  refine ⟨hf4, hf6, ?_⟩
  unfold get_public_ips
  split
  · rename_i hcond
    obtain ⟨-, ht4, ht6⟩ := hcond
    cases hc4 : c.ipv4 with
    | none => rw [hc4] at ht4; exact absurd ht4 (by simp [truthy])
    | some s4 =>
      cases hc6 : c.ipv6 with
      | none => rw [hc6] at ht6; exact absurd ht6 (by simp [truthy])
      | some s6 =>
        refine ⟨by simp [h4 s4 hc4], by simp [h6 s6 hc6], ?_, ?_⟩
        · intro s hs
          injection hs with h
          exact h ▸ h4 s4 hc4
        · intro s hs
          injection hs with h
          exact h ▸ h6 s6 hc6
  · refine ⟨hf4 r4, hf6 r6, ?_, ?_⟩
    · intro s hs
      simp only [Option.some.injEq] at hs
      rw [← hs]; exact hf4 r4
    · intro s hs
      simp only [Option.some.injEq] at hs
      rw [← hs]; exact hf6 r6

/-- Witness for C10 at the empty cache and exhausted endpoint lists. -/
theorem c10_fetched_ips_valid_witness :
    is_valid_ipv4 (get_public_ips ⟨none, none, 0⟩ 0 [] []).1 = true :=
  (c10_fetched_ips_valid ⟨none, none, 0⟩ 0 [] [] (by simp) (by simp)).2.2.1

/-- The decoder's table inverts the encoder's on all 64 positions. -/
theorem dec_enc : ∀ i < 64, decChar? (encChar i) = some i := by decide

/-- Encoder alphabet characters are ordinary ASCII distinct from padding,
space and newline. -/
theorem encChar_facts : ∀ i < 64, isB64Char (encChar i) = true ∧ encChar i ≠ '=' ∧
    encChar i ≠ ' ' ∧ encChar i ≠ '\n' ∧ (encChar i).toNat < 128 := by decide

/-- Every character the encoder emits is alphabet or padding. -/
theorem b2a_chars (bs : List Nat) (h : ∀ b ∈ bs, b < 256) :
    ∀ ch ∈ b2a bs, isB64Char ch = true ∨ ch = '=' := by
  induction bs using b2a.induct with
  | case1 => intro ch hch; simp [b2a] at hch
  | case2 a =>
    intro ch hch
    have ha : a < 256 := h a (by simp)
    simp only [b2a, List.mem_cons, List.not_mem_nil, or_false] at hch
    rcases hch with rfl | rfl | rfl | rfl
    · exact Or.inl (encChar_facts _ (by omega)).1
    · exact Or.inl (encChar_facts _ (by omega)).1
    · exact Or.inr rfl
    · exact Or.inr rfl
  | case3 a b =>
    intro ch hch
    have ha : a < 256 := h a (by simp)
    have hb : b < 256 := h b (by simp)
    simp only [b2a, List.mem_cons, List.not_mem_nil, or_false] at hch
    rcases hch with rfl | rfl | rfl | rfl
    · exact Or.inl (encChar_facts _ (by omega)).1
    · exact Or.inl (encChar_facts _ (by omega)).1
    · exact Or.inl (encChar_facts _ (by omega)).1
    · exact Or.inr rfl
  | case4 a b c rest ih =>
    intro ch hch
    have ha : a < 256 := h a (by simp)
    have hb : b < 256 := h b (by simp)
    have hc : c < 256 := h c (by simp)
    simp only [b2a, List.mem_cons] at hch
    rcases hch with rfl | rfl | rfl | rfl | hm
    · exact Or.inl (encChar_facts _ (by omega)).1
    · exact Or.inl (encChar_facts _ (by omega)).1
    · exact Or.inl (encChar_facts _ (by omega)).1
    · exact Or.inl (encChar_facts _ (by omega)).1
    · exact ih (fun x hx => h x (by simp [hx])) ch hm

/-- The encoder output length is a multiple of four. -/
theorem b2a_len (bs : List Nat) : (b2a bs).length % 4 = 0 := by
  induction bs using b2a.induct with
  | case1 => rfl
  | case2 a => simp [b2a]
  | case3 a b => simp [b2a]
  | case4 a b c rest ih => simp [b2a, Nat.add_mod, ih]

/-- An alphabet character is transparent to the `validate=True` gate. -/
theorem validB64_cons (c : Char) (hc : isB64Char c = true) (l : List Char) :
    validB64 (c :: l) = validB64 l := by
  simp [validB64, hc]

/-- Encoder output passes the `validate=True` gate. -/
theorem b2a_validB64 (bs : List Nat) (h : ∀ b ∈ bs, b < 256) :
    validB64 (b2a bs) = true := by
  induction bs using b2a.induct with
  | case1 => rfl
  | case2 a =>
    have ha : a < 256 := h a (by simp)
    show validB64 (encChar (a / 4) :: encChar (a % 4 * 16) :: '=' :: '=' :: []) = true
    rw [validB64_cons _ (encChar_facts _ (by omega)).1,
      validB64_cons _ (encChar_facts _ (by omega)).1]
    decide
  | case3 a b =>
    have ha : a < 256 := h a (by simp)
    have hb : b < 256 := h b (by simp)
    show validB64 (encChar (a / 4) :: encChar (a % 4 * 16 + b / 16) ::
      encChar (b % 16 * 4) :: '=' :: []) = true
    rw [validB64_cons _ (encChar_facts _ (by omega)).1,
      validB64_cons _ (encChar_facts _ (by omega)).1,
      validB64_cons _ (encChar_facts _ (by omega)).1]
    decide
  | case4 a b c rest ih =>
    have ha : a < 256 := h a (by simp)
    have hb : b < 256 := h b (by simp)
    have hc : c < 256 := h c (by simp)
    show validB64 (encChar (a / 4) :: encChar (a % 4 * 16 + b / 16) ::
      encChar (b % 16 * 4 + c / 64) :: encChar (c % 64) :: b2a rest) = true
    rw [validB64_cons _ (encChar_facts _ (by omega)).1,
      validB64_cons _ (encChar_facts _ (by omega)).1,
      validB64_cons _ (encChar_facts _ (by omega)).1,
      validB64_cons _ (encChar_facts _ (by omega)).1]
    exact ih (fun x hx => h x (by simp [hx]))

/-- Decoding inverts encoding on byte lists. -/
theorem a2b_b2a (bs : List Nat) (h : ∀ b ∈ bs, b < 256) : a2b (b2a bs) = .ok bs := by
  unfold a2b
  induction bs using b2a.induct with
  | case1 => rfl
  | case2 a =>
    have ha : a < 256 := h a (by simp)
    have d1 := dec_enc _ (show a / 4 < 64 by omega)
    have d2 := dec_enc _ (show a % 4 * 16 < 64 by omega)
    have n1 := (encChar_facts _ (show a / 4 < 64 by omega)).2.1
    have n2 := (encChar_facts _ (show a % 4 * 16 < 64 by omega)).2.1
    show a2bAux (encChar (a / 4) :: encChar (a % 4 * 16) :: '=' :: '=' :: []) [] 0 = .ok [a]
    simp only [a2bAux, n1, n2, d1, d2, if_neg, if_pos, List.nil_append, List.cons_append,
      List.length_cons, List.length_nil, emitPartial]
    norm_num [emitPartial]
    omega
  | case3 a b =>
    have ha : a < 256 := h a (by simp)
    have hb : b < 256 := h b (by simp)
    have d1 := dec_enc _ (show a / 4 < 64 by omega)
    have d2 := dec_enc _ (show a % 4 * 16 + b / 16 < 64 by omega)
    have d3 := dec_enc _ (show b % 16 * 4 < 64 by omega)
    have n1 := (encChar_facts _ (show a / 4 < 64 by omega)).2.1
    have n2 := (encChar_facts _ (show a % 4 * 16 + b / 16 < 64 by omega)).2.1
    have n3 := (encChar_facts _ (show b % 16 * 4 < 64 by omega)).2.1
    show a2bAux (encChar (a / 4) :: encChar (a % 4 * 16 + b / 16) ::
      encChar (b % 16 * 4) :: '=' :: []) [] 0 = .ok [a, b]
    simp only [a2bAux, n1, n2, n3, d1, d2, d3, if_neg, if_pos, List.nil_append,
      List.cons_append, List.length_cons, List.length_nil, emitPartial]
    norm_num [emitPartial]
    omega
  | case4 a b c rest ih =>
    have ha : a < 256 := h a (by simp)
    have hb : b < 256 := h b (by simp)
    have hc : c < 256 := h c (by simp)
    have ih' := ih (fun x hx => h x (by simp [hx]))
    have d1 := dec_enc _ (show a / 4 < 64 by omega)
    have d2 := dec_enc _ (show a % 4 * 16 + b / 16 < 64 by omega)
    have d3 := dec_enc _ (show b % 16 * 4 + c / 64 < 64 by omega)
    have d4 := dec_enc _ (show c % 64 < 64 by omega)
    have n1 := (encChar_facts _ (show a / 4 < 64 by omega)).2.1
    have n2 := (encChar_facts _ (show a % 4 * 16 + b / 16 < 64 by omega)).2.1
    have n3 := (encChar_facts _ (show b % 16 * 4 + c / 64 < 64 by omega)).2.1
    have n4 := (encChar_facts _ (show c % 64 < 64 by omega)).2.1
    show a2bAux (encChar (a / 4) :: encChar (a % 4 * 16 + b / 16) ::
      encChar (b % 16 * 4 + c / 64) :: encChar (c % 64) :: b2a rest) [] 0 = .ok (a :: b :: c :: rest)
    simp [a2bAux, n1, n2, n3, n4, d1, d2, d3, d4, ih', emit4]
    omega

/-- ASCII text UTF-8-encodes to one byte per character. -/
theorem utf8Encode_ascii (cs : List Char) (h : ∀ c ∈ cs, c.toNat < 128) :
    utf8Encode cs = cs.map (fun c => c.toNat) := by
  induction cs with
  | nil => rfl
  | cons c rest ih =>
    have hc := h c (by simp)
    have ih' := ih fun x hx => h x (by simp [hx])
    simp only [utf8Encode, List.map_cons, List.flatten_cons] at ih' ⊢
    rw [show utf8EncodeChar c = [c.toNat] from by simp [utf8EncodeChar, hc], ih']
    rfl

/-- Strict UTF-8 decoding inverts encoding on ASCII text. -/
theorem utf8Decode_ascii (cs : List Char) (h : ∀ c ∈ cs, c.toNat < 128) :
    utf8Decode? (cs.map (fun c => c.toNat)) = some cs := by
  induction cs with
  | nil => rfl
  | cons c rest ih =>
    have hc := h c (by simp)
    have ih' := ih fun x hx => h x (by simp [hx])
    unfold utf8Decode? at ih' ⊢
    rw [List.map_cons, utf8Step, if_pos hc, ih', Char.ofNat_toNat]
    rfl

/-- UTF-8 bytes of ASCII text are bytes. -/
theorem utf8Encode_ascii_bounds (cs : List Char) (h : ∀ c ∈ cs, c.toNat < 128) :
    ∀ b ∈ utf8Encode cs, b < 256 := by
  rw [utf8Encode_ascii cs h]
  intro b hb
  simp only [List.mem_map] at hb
  obtain ⟨c, hc, rfl⟩ := hb
  have := h c hc
  omega

/-- Alphabet characters sit in the printable ASCII band. -/
theorem isB64Char_range (c : Char) (hc : isB64Char c = true) :
    43 ≤ c.toNat ∧ c.toNat ≤ 122 := by
  simp only [isB64Char, decChar?] at hc
  split_ifs at hc <;> simp_all <;> omega

/-- C9: for printable-ASCII strings, `decode_base64 (encode_base64 s) = s` —
padded RFC 4648 encoding followed by the strip/pad/validate/decode pipeline
recovers the original string. -/
theorem c9_roundtrip (s : String) (h : ∀ c ∈ s.toList, 32 ≤ c.toNat ∧ c.toNat ≤ 126) :
    decode_base64 (encode_base64 s) = s := by
  have hascii : ∀ c ∈ s.toList, c.toNat < 128 := fun c hc => by have := h c hc; omega
  have hbytes : ∀ b ∈ utf8Encode s.toList, b < 256 := utf8Encode_ascii_bounds _ hascii
  have hchars := b2a_chars _ hbytes
  have props : ∀ ch ∈ b2a (utf8Encode s.toList),
      ch ≠ ' ' ∧ ch ≠ '\n' ∧ ch.toNat < 128 := by
    intro ch hm
    rcases hchars ch hm with hb | rfl
    · have hr := isB64Char_range ch hb
      refine ⟨fun hEq => ?_, fun hEq => ?_, by omega⟩
      · subst hEq; exact absurd hr (by decide)
      · subst hEq; exact absurd hr (by decide)
    · exact ⟨by decide, by decide, by decide⟩
  have ha2b : a2b (b2a (utf8Encode s.toList)) = .ok (utf8Encode s.toList) :=
    a2b_b2a _ hbytes
  have hdec : utf8Decode? (utf8Encode s.toList) = some s.toList := by
    rw [utf8Encode_ascii _ hascii]
    exact utf8Decode_ascii _ hascii
  have hcond : (b2a (utf8Encode s.toList)).all (fun c => decide (c.toNat < 128)) = true :=
    List.all_eq_true.mpr fun a ha => by simpa using (props a ha).2.2
  have hvalid : validB64 (b2a (utf8Encode s.toList)) = true := b2a_validB64 _ hbytes
  simp only [encode_base64, decode_base64]
  rw [show (String.mk (b2a (utf8Encode s.toList))).toList = b2a (utf8Encode s.toList)
    from rfl]
  rw [List.filter_eq_self.mpr (fun a ha => by
    have hmem := (List.mem_filter.mp ha).1
    simpa using (props a hmem).2.1)]
  rw [List.filter_eq_self.mpr (fun a ha => by simpa using (props a ha).1)]
  rw [b2a_len]
  norm_num
  rw [show s.data = s.toList from rfl]
  rw [if_pos ⟨fun x hx => (props x hx).2.2, hvalid⟩]
  simp only [ha2b, hdec]
  rfl

/-- Witness for C9 at a concrete printable string. -/
theorem c9_roundtrip_witness : decode_base64 (encode_base64 "Hello, World!") = "Hello, World!" :=
  c9_roundtrip "Hello, World!" (by decide)
